import Mathlib

set_option maxRecDepth 10000

/-!
Verification of the SUDOKU-SAT repository: a SAT-based Sudoku pipeline
consisting of two CNF encoders (`sud2sat`, the minimal encoding, and
`sud2sat_extended`, the extended encoding) and an assignment decoder
(`sat2sud`).  Each program is embedded shallowly below, in its own
namespace, following the C++ sources line by line:

* `Sud2Sat`    embeds `sud2sat.cpp` (the minimal encoder);
* `Sud2SatExt` embeds `sud2sat_extended.cpp` (the extended encoder);
* `Sat2Sud`    embeds `sat2sud.cpp` (the decoder).

Grids are row-major lists of 81 cell values (0 = empty, 1..9 = digit),
clauses are lists of integer literals, and the serialized CNF output is a
list of text lines.
-/

/-- Inclusive range of naturals `a..b`, the index list of a C++
`for (i = a; i <= b; ++i)` loop; empty when `b < a`. -/
def rng (a b : Nat) : List Nat := (List.range (b + 1 - a)).map (a + ·)

/-- `isspace` of the C locale: the six standard whitespace characters. -/
def isSpaceChar (c : Char) : Bool :=
  c = ' ' || c = '\t' || c = '\n' || c = '\r' || c = '\x0b' || c = '\x0c'

namespace Sud2Sat

/-- Number of rows of the grid (`NUM_ROWS`). -/
def numRows : Nat := 9

/-- Number of columns of the grid (`NUM_COLS`). -/
def numCols : Nat := 9

/-- Number of digits (`NUM_DIGITS`). -/
def numDigits : Nat := 9

/-- Total number of propositional variables (`NUM_VARS = 729`). -/
def numVars : Nat := numRows * numCols * numDigits

/-- `varnum`: maps a (row, column, digit) triple, each in `[1,9]`, to the
propositional variable `81*(r-1) + 9*(c-1) + d`. -/
def varnum (r c d : Int) : Int := 81 * (r - 1) + 9 * (c - 1) + d

/-- `add_cell_at_least_one`: for each cell (r,c) one 9-literal clause
requiring some digit in that cell. -/
def add_cell_at_least_one : List (List Int) :=
  (rng 1 9).flatMap fun r => (rng 1 9).map fun c =>
    (rng 1 9).map fun d => varnum r c d

/-- `add_row_at_most_one`: for each row r, digit d and column pair
c1 < c2, the binary clause forbidding d in both columns. -/
def add_row_at_most_one : List (List Int) :=
  (rng 1 9).flatMap fun r => (rng 1 9).flatMap fun d =>
    (rng 1 8).flatMap fun c1 => (rng (c1 + 1) 9).map fun c2 =>
      [-varnum r c1 d, -varnum r c2 d]

/-- `add_col_at_most_one`: for each column c, digit d and row pair
r1 < r2, the binary clause forbidding d in both rows. -/
def add_col_at_most_one : List (List Int) :=
  (rng 1 9).flatMap fun c => (rng 1 9).flatMap fun d =>
    (rng 1 8).flatMap fun r1 => (rng (r1 + 1) 9).map fun r2 =>
      [-varnum r1 c d, -varnum r2 c d]

/-- The nine cells of the 3x3 box with block coordinates (br, bc),
in the order the C++ code enumerates them. -/
def boxCells (br bc : Nat) : List (Nat × Nat) :=
  (rng 0 2).flatMap fun dr => (rng 0 2).map fun dc =>
    (3 * br + dr + 1, 3 * bc + dc + 1)

/-- `add_box_at_most_one`: for each box, digit and unordered pair of box
cells, the binary clause forbidding the digit in both cells. -/
def add_box_at_most_one : List (List Int) :=
  (rng 0 2).flatMap fun br => (rng 0 2).flatMap fun bc =>
    (rng 1 9).flatMap fun d => (rng 0 8).flatMap fun i => (rng (i + 1) 8).map fun j =>
      [-varnum ((boxCells br bc).getD i (0, 0)).1 ((boxCells br bc).getD i (0, 0)).2 d,
       -varnum ((boxCells br bc).getD j (0, 0)).1 ((boxCells br bc).getD j (0, 0)).2 d]

/-- `add_givens`: one unit clause for every grid cell holding a digit in
`[1,9]`; empty cells contribute nothing. -/
def add_givens (grid : List Nat) : List (List Int) :=
  (rng 1 9).flatMap fun r => (rng 1 9).flatMap fun c =>
    let d := grid.getD (9 * (r - 1) + (c - 1)) 0
    if 1 ≤ d ∧ d ≤ 9 then [[varnum r c d]] else []

/-- Classification of one puzzle character (`read_grid` body): digits
'1'..'9' give that digit, the four wildcard characters give 0, anything
else is rejected. -/
def charToCell (ch : Char) : Option Nat :=
  if '1' ≤ ch ∧ ch ≤ '9' then some (ch.toNat - '0'.toNat)
  else if ch = '0' ∨ ch = '.' ∨ ch = '*' ∨ ch = '?' then some 0
  else none

/-- The cell-filling loop of `read_grid`: maps each character to a cell
value, failing at the first invalid character with its position. -/
def cellsFrom (k : Nat) : List Char → Except String (List Nat)
  | [] => .ok []
  | ch :: rest =>
    match charToCell ch with
    | none => .error ("invalid character at position " ++ toString k)
    | some d =>
      match cellsFrom (k + 1) rest with
      | .error e => .error e
      | .ok ds => .ok (d :: ds)

/-- `read_grid`: strips all whitespace from the input, requires exactly
81 remaining characters, then maps each into a cell value. -/
def read_grid (input : String) : Except String (List Nat) :=
  let all := input.toList.filter fun ch => !isSpaceChar ch
  if all.length = 81 then cellsFrom 0 all
  else .error ("expected exactly 81 non-whitespace characters, got " ++ toString all.length)

/-- The clause collection built by the minimal encoder, in the exact
order `main` generates it. -/
def sud2satClauses (grid : List Nat) : List (List Int) :=
  add_cell_at_least_one ++ add_row_at_most_one ++ add_col_at_most_one ++
    add_box_at_most_one ++ add_givens grid

/-- One serialized clause line: each literal followed by a space, then
the terminating 0 sentinel. -/
def renderClause (cl : List Int) : String :=
  String.join (cl.map fun lit => toString lit ++ " ") ++ "0"

/-- The clause-printing loop of `main`: one line per clause in stored
order. -/
def serializeLines : List (List Int) → List String
  | [] => []
  | cl :: rest => renderClause cl :: serializeLines rest

/-- The serialized DIMACS output: the `p cnf` header followed by the
clause lines. -/
def serialize (cls : List (List Int)) : List String :=
  ("p cnf " ++ toString numVars ++ " " ++ toString cls.length) :: serializeLines cls

/-- The whole minimal encoder: parse the puzzle, build the minimal
clause collection, serialize it; on a parse failure no output is
produced. -/
def sud2sat (input : String) : Except String (List String) :=
  match read_grid input with
  | .error e => .error e
  | .ok grid => .ok (serialize (sud2satClauses grid))

end Sud2Sat

namespace Sat2Sud

/-- `NUM_VARS` of the decoder. -/
def numVars : Nat := 9 * 9 * 9

/-- `inv_varnum`: the decoding of a variable back to its
(row, column, digit) triple, using C++ truncated division and modulus. -/
def inv_varnum (v : Int) : Int × Int × Int :=
  ((v - 1).tdiv 81 + 1, ((v - 1).tmod 81).tdiv 9 + 1, ((v - 1).tmod 81).tmod 9 + 1)

/-- Whitespace splitting of a character stream into maximal nonempty
tokens, with `acc` the (reversed) characters of the token being read:
this is how repeated `stringstream` extraction cuts a line. -/
def tokenizeAux : List Char → List Char → List String
  | [], acc => if acc.isEmpty then [] else [String.mk acc.reverse]
  | c :: rest, acc =>
    if isSpaceChar c then
      if acc.isEmpty then tokenizeAux rest []
      else String.mk acc.reverse :: tokenizeAux rest []
    else tokenizeAux rest (c :: acc)

/-- The whitespace-separated tokens of one text line, as a C++
`stringstream` extraction sequence produces them. -/
def tokensOf (s : String) : List String :=
  tokenizeAux s.toList []

/-- Decimal digit test for the integer parser. -/
def isDigitChar (c : Char) : Bool := '0' ≤ c && c ≤ '9'

/-- Value of a nonempty decimal digit string. -/
def digitsVal (cs : List Char) : Nat :=
  cs.foldl (fun n c => 10 * n + (c.toNat - '0'.toNat)) 0

/-- One `stringstream` integer extraction from a token: an optional
sign followed by decimal digits; anything else fails the extraction. -/
def parseIntToken (t : String) : Option Int :=
  match t.toList with
  | [] => none
  | '-' :: rest =>
    if rest.isEmpty || !rest.all isDigitChar then none
    else some (-(digitsVal rest : Int))
  | '+' :: rest =>
    if rest.isEmpty || !rest.all isDigitChar then none
    else some ((digitsVal rest : Int))
  | cs =>
    if cs.all isDigitChar then some ((digitsVal cs : Int)) else none

/-- The assignment-reading loop: consume integer tokens until the first
token that fails to parse or the terminating 0; the collected literals
exclude the terminator. -/
def parseInts : List String → List Int
  | [] => []
  | t :: ts =>
    match parseIntToken t with
    | none => []
    | some v => if v = 0 then [] else v :: parseInts ts

/-- One iteration of the valuation-building loop: a positive in-range
literal sets its variable true (1), a negative in-range literal sets it
false (-1), anything else is skipped. -/
def valStep (val : Nat → Int) (x : Int) : Nat → Int := fun j =>
  if 0 < x ∧ x ≤ 729 then (if j = x.toNat then 1 else val j)
  else if x < 0 ∧ -x ≤ 729 then (if j = (-x).toNat then -1 else val j)
  else val j

/-- The valuation built from the literal list: every entry starts unset
(0) and the literals are applied in order. -/
def buildVal (ints : List Int) : Nat → Int :=
  ints.foldl valStep (fun _ => 0)

/-- One iteration of the grid-reconstruction loop, for loop counter
`i` (the variable is `i + 1`): if the variable is valued true, write
its digit into its cell at row-major index `(r-1)*9 + (c-1)`. -/
def gridStep (val : Nat → Int) (g : List Nat) (i : Nat) : List Nat :=
  if val (i + 1) = 1 then
    g.set (((inv_varnum ((i : Int) + 1)).1 - 1).toNat * 9 +
            ((inv_varnum ((i : Int) + 1)).2.1 - 1).toNat)
      ((inv_varnum ((i : Int) + 1)).2.2.toNat)
  else g

/-- The grid-reconstruction loop: scan variables 1..729 in increasing
order and, for every variable valued true, write its digit into its
cell (row-major index); the grid starts all zeros. -/
def decodeGrid (val : Nat → Int) : List Nat :=
  (List.range 729).foldl (gridStep val) (List.replicate 81 0)

/-- The observable outcome of one decoder run: a solved grid printed to
standard output, the distinct unsatisfiable report, or an error. -/
inductive DecodeResult where
  | solved (grid : List Nat) : DecodeResult
  | unsat : DecodeResult
  | failure (msg : String) : DecodeResult
deriving DecidableEq

/-- The decoder `main`: the first line must be exactly UNSAT (reported
as no solution) or exactly SAT; after SAT the second line is parsed as
the assignment and the grid is decoded from it.  Lines after the second
are never read. -/
def sat2sud (lines : List String) : DecodeResult :=
  match lines with
  | [] => .failure "empty assignment file"
  | firstLine :: rest =>
    if firstLine = "UNSAT" then .unsat
    else if firstLine ≠ "SAT" then .failure "expected SAT or UNSAT on first line"
    else
      match rest with
      | [] => .failure "expected assignment line after SAT"
      | secondLine :: _ =>
        .solved (decodeGrid (buildVal (parseInts (tokensOf secondLine))))

end Sat2Sud

namespace Sud2SatExt

/-- `NUM_VARS` of the extended encoder. -/
def numVars : Nat := 9 * 9 * 9

/-- `varnum` of the extended encoder (same formula as the minimal
encoder, duplicated in its source file). -/
def varnum (r c d : Int) : Int := 81 * (r - 1) + 9 * (c - 1) + d

/-- `add_cell_at_least_one` of the extended encoder. -/
def add_cell_at_least_one : List (List Int) :=
  (rng 1 9).flatMap fun r => (rng 1 9).map fun c =>
    (rng 1 9).map fun d => varnum r c d

/-- `add_row_at_most_one` of the extended encoder. -/
def add_row_at_most_one : List (List Int) :=
  (rng 1 9).flatMap fun r => (rng 1 9).flatMap fun d =>
    (rng 1 8).flatMap fun c1 => (rng (c1 + 1) 9).map fun c2 =>
      [-varnum r c1 d, -varnum r c2 d]

/-- `add_col_at_most_one` of the extended encoder. -/
def add_col_at_most_one : List (List Int) :=
  (rng 1 9).flatMap fun c => (rng 1 9).flatMap fun d =>
    (rng 1 8).flatMap fun r1 => (rng (r1 + 1) 9).map fun r2 =>
      [-varnum r1 c d, -varnum r2 c d]

/-- Box cell enumeration of the extended encoder. -/
def boxCells (br bc : Nat) : List (Nat × Nat) :=
  (rng 0 2).flatMap fun dr => (rng 0 2).map fun dc =>
    (3 * br + dr + 1, 3 * bc + dc + 1)

/-- `add_box_at_most_one` of the extended encoder. -/
def add_box_at_most_one : List (List Int) :=
  (rng 0 2).flatMap fun br => (rng 0 2).flatMap fun bc =>
    (rng 1 9).flatMap fun d => (rng 0 8).flatMap fun i => (rng (i + 1) 8).map fun j =>
      [-varnum ((boxCells br bc).getD i (0, 0)).1 ((boxCells br bc).getD i (0, 0)).2 d,
       -varnum ((boxCells br bc).getD j (0, 0)).1 ((boxCells br bc).getD j (0, 0)).2 d]

/-- `add_cell_at_most_one` (extended only): for each cell and digit pair
d1 < d2, the binary clause forbidding both digits in the cell. -/
def add_cell_at_most_one : List (List Int) :=
  (rng 1 9).flatMap fun r => (rng 1 9).flatMap fun c =>
    (rng 1 8).flatMap fun d1 => (rng (d1 + 1) 9).map fun d2 =>
      [-varnum r c d1, -varnum r c d2]

/-- `add_row_at_least_one` (extended only): each digit appears at least
once in each row. -/
def add_row_at_least_one : List (List Int) :=
  (rng 1 9).flatMap fun r => (rng 1 9).map fun d =>
    (rng 1 9).map fun c => varnum r c d

/-- `add_col_at_least_one` (extended only): each digit appears at least
once in each column. -/
def add_col_at_least_one : List (List Int) :=
  (rng 1 9).flatMap fun c => (rng 1 9).map fun d =>
    (rng 1 9).map fun r => varnum r c d

/-- `add_box_at_least_one` (extended only): each digit appears at least
once in each 3x3 box. -/
def add_box_at_least_one : List (List Int) :=
  (rng 0 2).flatMap fun br => (rng 0 2).flatMap fun bc =>
    (rng 1 9).map fun d =>
      (boxCells br bc).map fun cell => varnum cell.1 cell.2 d

/-- `add_givens` of the extended encoder. -/
def add_givens (grid : List Nat) : List (List Int) :=
  (rng 1 9).flatMap fun r => (rng 1 9).flatMap fun c =>
    let d := grid.getD (9 * (r - 1) + (c - 1)) 0
    if 1 ≤ d ∧ d ≤ 9 then [[varnum r c d]] else []

/-- `charToCell` of the extended encoder. -/
def charToCell (ch : Char) : Option Nat :=
  if '1' ≤ ch ∧ ch ≤ '9' then some (ch.toNat - '0'.toNat)
  else if ch = '0' ∨ ch = '.' ∨ ch = '*' ∨ ch = '?' then some 0
  else none

/-- Cell-filling loop of the extended encoder. -/
def cellsFrom (k : Nat) : List Char → Except String (List Nat)
  | [] => .ok []
  | ch :: rest =>
    match charToCell ch with
    | none => .error ("invalid character at position " ++ toString k)
    | some d =>
      match cellsFrom (k + 1) rest with
      | .error e => .error e
      | .ok ds => .ok (d :: ds)

/-- `read_grid` of the extended encoder. -/
def read_grid (input : String) : Except String (List Nat) :=
  let all := input.toList.filter fun ch => !isSpaceChar ch
  if all.length = 81 then cellsFrom 0 all
  else .error ("expected exactly 81 non-whitespace characters, got " ++ toString all.length)

/-- The clause collection built by the extended encoder, in the exact
order its `main` generates it: the five minimal-encoding families, then
the four extended families. -/
def extendedClauses (grid : List Nat) : List (List Int) :=
  add_cell_at_least_one ++ add_row_at_most_one ++ add_col_at_most_one ++
    add_box_at_most_one ++ add_givens grid ++ add_cell_at_most_one ++
    add_row_at_least_one ++ add_col_at_least_one ++ add_box_at_least_one

/-- One serialized clause line of the extended encoder. -/
def renderClause (cl : List Int) : String :=
  String.join (cl.map fun lit => toString lit ++ " ") ++ "0"

/-- Clause-printing loop of the extended encoder. -/
def serializeLines : List (List Int) → List String
  | [] => []
  | cl :: rest => renderClause cl :: serializeLines rest

/-- Serialized DIMACS output of the extended encoder. -/
def serialize (cls : List (List Int)) : List String :=
  ("p cnf " ++ toString numVars ++ " " ++ toString cls.length) :: serializeLines cls

/-- The whole extended encoder: parse the puzzle, build the extended
clause collection, serialize it. -/
def sud2satExtended (input : String) : Except String (List String) :=
  match read_grid input with
  | .error e => .error e
  | .ok grid => .ok (serialize (extendedClauses grid))

end Sud2SatExt

/-- A (row, column, digit) triple is valid when all three components lie
in `[1,9]`. -/
def validTriple (t : Int × Int × Int) : Prop :=
  1 ≤ t.1 ∧ t.1 ≤ 9 ∧ 1 ≤ t.2.1 ∧ t.2.1 ≤ 9 ∧ 1 ≤ t.2.2 ∧ t.2.2 ≤ 9

/-- A puzzle symbol accepted by the encoders: a digit or one of the four
wildcard characters. -/
def validSymbol (ch : Char) : Prop :=
  ('1' ≤ ch ∧ ch ≤ '9') ∨ ch = '0' ∨ ch = '.' ∨ ch = '*' ∨ ch = '?'

instance (ch : Char) : Decidable (validSymbol ch) := by
  unfold validSymbol
  infer_instance

/-- The number of given cells of a grid: row-major positions holding a
digit in `[1,9]`. -/
def numGivens (grid : List Nat) : Nat :=
  (List.range 81).countP fun k => decide (1 ≤ grid.getD k 0 ∧ grid.getD k 0 ≤ 9)

/-- Scan of the digits of row-major cell `k` given by loop counters
`l` (digit j+1 for counter j), starting from accumulated digit `a`:
each true variable `9k + j + 1` overwrites the accumulator with its
digit. -/
def digitScan (val : Nat → Int) (k : Nat) (a : Nat) (l : List Nat) : Nat :=
  l.foldl (fun acc j => if val (9 * k + j + 1) = 1 then j + 1 else acc) a

/-- The digit the decoded grid shows in row-major cell `k`: the largest
digit d with variable `9k + d` valued true, or 0 when no digit of the
cell is true (the decoding loop scans variables in increasing order, so
the last write to a cell comes from its largest true digit). -/
def cellDigit (val : Nat → Int) (k : Nat) : Nat :=
  digitScan val k 0 (List.range 9)

/-! ## General lemmas -/

lemma tmod_neg_left (a b : Int) : (-a).tmod b = -(a.tmod b) := by
  simp only [Int.tmod_def, Int.neg_tdiv]
  ring

lemma length_flatMap_sum {α β : Type} (l : List α) (f : α → List β) :
    (l.flatMap f).length = (l.map fun a => (f a).length).sum := by
  induction l with
  | nil => rfl
  | cons x xs ih => simp [List.flatMap_cons, ih]

lemma countP_eq_sum_map {α : Type} (l : List α) (p : α → Bool) :
    l.countP p = (l.map fun a => if p a then 1 else 0).sum := by
  induction l with
  | nil => rfl
  | cons x xs ih => simp [List.countP_cons, ih]; omega

lemma sum_flatMap {α : Type} (l : List α) (f : α → List Nat) :
    (l.flatMap f).sum = (l.map fun a => (f a).sum).sum := by
  induction l with
  | nil => rfl
  | cons x xs ih => simp [List.flatMap_cons, ih]

lemma range81_eq_cells : List.range 81 =
    (rng 1 9).flatMap fun r => (rng 1 9).map fun c => 9 * (r - 1) + (c - 1) := by
  decide

/-! ## Lengths of the constraint families -/

lemma length_cell_at_least_one : Sud2Sat.add_cell_at_least_one.length = 81 := by
  simp only [Sud2Sat.add_cell_at_least_one, length_flatMap_sum, List.map_map,
    List.length_map]
  decide

lemma length_row_at_most_one : Sud2Sat.add_row_at_most_one.length = 2916 := by
  simp only [Sud2Sat.add_row_at_most_one, length_flatMap_sum, List.map_map,
    List.length_map]
  decide

lemma length_col_at_most_one : Sud2Sat.add_col_at_most_one.length = 2916 := by
  simp only [Sud2Sat.add_col_at_most_one, length_flatMap_sum, List.map_map,
    List.length_map]
  decide

lemma length_box_at_most_one : Sud2Sat.add_box_at_most_one.length = 2916 := by
  simp only [Sud2Sat.add_box_at_most_one, length_flatMap_sum, List.map_map,
    List.length_map]
  decide

lemma length_add_givens (g : List Nat) : (Sud2Sat.add_givens g).length = numGivens g := by
  rw [numGivens, countP_eq_sum_map, range81_eq_cells]
  simp only [List.map_flatMap, List.map_map]
  rw [sum_flatMap]
  rw [Sud2Sat.add_givens, length_flatMap_sum]
  simp only [List.map_map, length_flatMap_sum]
  congr 1
  apply List.map_congr_left
  intro r _
  congr 1
  apply List.map_congr_left
  intro c _
  simp only [Function.comp_apply]
  split
  · simp_all
  · simp_all
    rw [if_neg (by omega)]

lemma length_cell_at_most_one : Sud2SatExt.add_cell_at_most_one.length = 2916 := by
  simp only [Sud2SatExt.add_cell_at_most_one, length_flatMap_sum, List.map_map,
    List.length_map]
  decide

lemma length_row_at_least_one : Sud2SatExt.add_row_at_least_one.length = 81 := by
  simp only [Sud2SatExt.add_row_at_least_one, length_flatMap_sum, List.map_map,
    List.length_map]
  decide

lemma length_col_at_least_one : Sud2SatExt.add_col_at_least_one.length = 81 := by
  simp only [Sud2SatExt.add_col_at_least_one, length_flatMap_sum, List.map_map,
    List.length_map]
  decide

lemma length_box_at_least_one : Sud2SatExt.add_box_at_least_one.length = 81 := by
  simp only [Sud2SatExt.add_box_at_least_one, length_flatMap_sum, List.map_map,
    List.length_map]
  decide

/-! ## The extended encoder duplicates the minimal encoder -/

lemma ext_varnum_eq : Sud2SatExt.varnum = Sud2Sat.varnum := rfl

lemma ext_cell_at_least_one_eq :
    Sud2SatExt.add_cell_at_least_one = Sud2Sat.add_cell_at_least_one := rfl

lemma ext_row_at_most_one_eq :
    Sud2SatExt.add_row_at_most_one = Sud2Sat.add_row_at_most_one := rfl

lemma ext_col_at_most_one_eq :
    Sud2SatExt.add_col_at_most_one = Sud2Sat.add_col_at_most_one := rfl

lemma ext_box_at_most_one_eq :
    Sud2SatExt.add_box_at_most_one = Sud2Sat.add_box_at_most_one := rfl

lemma ext_add_givens_eq : Sud2SatExt.add_givens = Sud2Sat.add_givens := rfl

lemma ext_cellsFrom_eq (k : Nat) (l : List Char) :
    Sud2SatExt.cellsFrom k l = Sud2Sat.cellsFrom k l := by
  induction l generalizing k with
  | nil => rfl
  | cons ch rest ih =>
    simp only [Sud2SatExt.cellsFrom, Sud2Sat.cellsFrom, Sud2SatExt.charToCell,
      Sud2Sat.charToCell, ih]

lemma ext_read_grid_eq (input : String) :
    Sud2SatExt.read_grid input = Sud2Sat.read_grid input := by
  simp only [Sud2SatExt.read_grid, Sud2Sat.read_grid, ext_cellsFrom_eq]

/-! ## Claim C1: the variable bijection is a round trip -/

/-- Claim C1: for every row, col, digit each in [1,9], decoding the
encoded variable `varnum(row,col,digit) = 81*(row-1)+9*(col-1)+digit`
via `inv_varnum` yields exactly (row, col, digit); and for every
variable v in [1,729], encoding the triple `inv_varnum(v)` yields v
again, so the two functions partition [1,729] with no gaps or
collisions. -/
theorem varnum_inv_varnum_round_trip :
    (∀ r c d : Int, 1 ≤ r → r ≤ 9 → 1 ≤ c → c ≤ 9 → 1 ≤ d → d ≤ 9 →
      Sat2Sud.inv_varnum (Sud2Sat.varnum r c d) = (r, c, d)) ∧
    (∀ v : Int, 1 ≤ v → v ≤ 729 →
      Sud2Sat.varnum (Sat2Sud.inv_varnum v).1 (Sat2Sud.inv_varnum v).2.1
        (Sat2Sud.inv_varnum v).2.2 = v) := by
  constructor
  · intro r c d hr1 hr2 hc1 hc2 hd1 hd2
    simp only [Sat2Sud.inv_varnum, Sud2Sat.varnum]
    have h0 : (0:Int) ≤ 81 * (r - 1) + 9 * (c - 1) + d - 1 := by omega
    rw [Int.tdiv_eq_ediv h0 (by omega), Int.tmod_eq_emod h0 (by omega)]
    have h1 : (0:Int) ≤ (81 * (r - 1) + 9 * (c - 1) + d - 1) % 81 :=
      Int.emod_nonneg _ (by omega)
    rw [Int.tdiv_eq_ediv h1 (by omega), Int.tmod_eq_emod h1 (by omega)]
    simp only [Prod.mk.injEq]
    refine ⟨?_, ?_, ?_⟩ <;> omega
  · intro v h1 h2
    simp only [Sat2Sud.inv_varnum, Sud2Sat.varnum]
    have h0 : (0:Int) ≤ v - 1 := by omega
    rw [Int.tdiv_eq_ediv h0 (by omega), Int.tmod_eq_emod h0 (by omega)]
    have hm : (0:Int) ≤ (v - 1) % 81 := Int.emod_nonneg _ (by omega)
    rw [Int.tdiv_eq_ediv hm (by omega), Int.tmod_eq_emod hm (by omega)]
    omega

/-- Witness for claim C1 at the concrete triple (3,5,7) and the
concrete variable 400. -/
theorem varnum_inv_varnum_round_trip_witness :
    Sat2Sud.inv_varnum (Sud2Sat.varnum 3 5 7) = (3, 5, 7) ∧
    Sud2Sat.varnum (Sat2Sud.inv_varnum 400).1 (Sat2Sud.inv_varnum 400).2.1
      (Sat2Sud.inv_varnum 400).2.2 = 400 :=
  ⟨varnum_inv_varnum_round_trip.1 3 5 7 (by decide) (by decide) (by decide)
      (by decide) (by decide) (by decide),
   varnum_inv_varnum_round_trip.2 400 (by decide) (by decide)⟩

/-! ## Claim C3: inv_varnum on out-of-range input -/

/-- Claim C3 counterexample: `inv_varnum` applied to the out-of-range
variable 730 does not fail; it returns the garbage triple (10, 1, 1),
whose row component lies outside [1,9]. -/
theorem inv_varnum_out_of_range_counterexample :
    Sat2Sud.inv_varnum 730 = (10, 1, 1) ∧
    ¬ validTriple (Sat2Sud.inv_varnum 730) := by
  constructor
  · decide
  · unfold validTriple
    decide

/-- Claim C3 amended: `inv_varnum` performs no range check and signals
no InvalidVariable condition; for every value outside [1,729] it still
returns a triple, but that triple is never a valid (row, column, digit)
triple: some component falls outside [1,9]. -/
theorem inv_varnum_no_range_check (v : Int) (h : v < 1 ∨ 729 < v) :
    ¬ validTriple (Sat2Sud.inv_varnum v) := by
  intro hv
  simp only [validTriple, Sat2Sud.inv_varnum] at hv
  rcases h with h | h
  · have hnn : (0:Int) ≤ 1 - v := by omega
    have hm : (0:Int) ≤ (1 - v) % 81 := Int.emod_nonneg _ (by omega)
    have e1 : (v - 1).tdiv 81 = -((1 - v) / 81) := by
      rw [show v - 1 = -(1 - v) by ring, Int.neg_tdiv, Int.tdiv_eq_ediv hnn (by omega)]
    have e2 : (v - 1).tmod 81 = -((1 - v) % 81) := by
      rw [show v - 1 = -(1 - v) by ring, tmod_neg_left, Int.tmod_eq_emod hnn (by omega)]
    have e3 : ((v - 1).tmod 81).tdiv 9 = -(((1 - v) % 81) / 9) := by
      rw [e2, Int.neg_tdiv, Int.tdiv_eq_ediv hm (by omega)]
    have e4 : ((v - 1).tmod 81).tmod 9 = -(((1 - v) % 81) % 9) := by
      rw [e2, tmod_neg_left, Int.tmod_eq_emod hm (by omega)]
    rw [e1, e3, e4] at hv
    omega
  · have hnn : (0:Int) ≤ v - 1 := by omega
    have hm : (0:Int) ≤ (v - 1) % 81 := Int.emod_nonneg _ (by omega)
    rw [Int.tdiv_eq_ediv hnn (by omega), Int.tmod_eq_emod hnn (by omega)] at hv
    rw [Int.tdiv_eq_ediv hm (by omega), Int.tmod_eq_emod hm (by omega)] at hv
    omega

/-- Witness for the amended claim C3 at the concrete out-of-range
inputs 730 and 0. -/
theorem inv_varnum_no_range_check_witness :
    ¬ validTriple (Sat2Sud.inv_varnum 730) ∧
    ¬ validTriple (Sat2Sud.inv_varnum 0) :=
  ⟨inv_varnum_no_range_check 730 (by decide),
   inv_varnum_no_range_check 0 (by decide)⟩

/-! ## Claim C2: clause-count identities -/

/-- Claim C2: for every well-formed 81-symbol puzzle input, the minimal
encoder emits exactly 81 + 2916*3 + G clauses, where G is the number of
given cells holding a digit in [1,9], and the extended encoder emits
exactly that minimal count plus 2916 + 81*3 additional clauses. -/
theorem clause_count_identities (input : String) (grid : List Nat)
    (h : Sud2Sat.read_grid input = .ok grid) :
    Sud2SatExt.read_grid input = .ok grid ∧
    (Sud2Sat.sud2satClauses grid).length = 81 + 2916 * 3 + numGivens grid ∧
    (Sud2SatExt.extendedClauses grid).length =
      (Sud2Sat.sud2satClauses grid).length + (2916 + 81 * 3) := by
  refine ⟨(ext_read_grid_eq input).trans h, ?_, ?_⟩
  · simp only [Sud2Sat.sud2satClauses, List.length_append,
      length_cell_at_least_one, length_row_at_most_one, length_col_at_most_one,
      length_box_at_most_one, length_add_givens]
  · simp only [Sud2SatExt.extendedClauses, Sud2Sat.sud2satClauses,
      List.length_append, ext_cell_at_least_one_eq, ext_row_at_most_one_eq,
      ext_col_at_most_one_eq, ext_box_at_most_one_eq, ext_add_givens_eq,
      length_cell_at_least_one, length_row_at_most_one, length_col_at_most_one,
      length_box_at_most_one, length_add_givens, length_cell_at_most_one,
      length_row_at_least_one, length_col_at_least_one, length_box_at_least_one]

/-- Witness for claim C2 at a concrete puzzle with nine givens in the
first row and 72 empty cells. -/
theorem clause_count_identities_witness :
    Sud2SatExt.read_grid
        "123456789\n........................................................................" =
      .ok ([1, 2, 3, 4, 5, 6, 7, 8, 9] ++ List.replicate 72 0) ∧
    (Sud2Sat.sud2satClauses ([1, 2, 3, 4, 5, 6, 7, 8, 9] ++ List.replicate 72 0)).length =
      81 + 2916 * 3 + numGivens ([1, 2, 3, 4, 5, 6, 7, 8, 9] ++ List.replicate 72 0) ∧
    (Sud2SatExt.extendedClauses ([1, 2, 3, 4, 5, 6, 7, 8, 9] ++ List.replicate 72 0)).length =
      (Sud2Sat.sud2satClauses ([1, 2, 3, 4, 5, 6, 7, 8, 9] ++ List.replicate 72 0)).length +
        (2916 + 81 * 3) :=
  clause_count_identities
    "123456789\n........................................................................"
    ([1, 2, 3, 4, 5, 6, 7, 8, 9] ++ List.replicate 72 0) (by rfl)

/-! ## Claim C7: serializer output format -/

lemma string_foldl_append (l : List String) (x : String) :
    l.foldl (fun r s => r ++ s) x = x ++ l.foldl (fun r s => r ++ s) "" := by
  induction l generalizing x with
  | nil => simp
  | cons a l ih =>
    simp only [List.foldl_cons]
    rw [ih (x ++ a), ih ("" ++ a)]
    simp [String.append_assoc]

lemma string_join_cons (a : String) (l : List String) :
    String.join (a :: l) = a ++ String.join l := by
  unfold String.join
  simp only [List.foldl_cons]
  rw [string_foldl_append l ("" ++ a), String.empty_append]

lemma serializeLines_eq_map (cls : List (List Int)) :
    Sud2Sat.serializeLines cls = cls.map Sud2Sat.renderClause := by
  induction cls with
  | nil => rfl
  | cons cl rest ih => simp [Sud2Sat.serializeLines, ih]

lemma ext_renderClause_eq : Sud2SatExt.renderClause = Sud2Sat.renderClause := rfl

lemma ext_serializeLines_eq_map (cls : List (List Int)) :
    Sud2SatExt.serializeLines cls = cls.map Sud2SatExt.renderClause := by
  induction cls with
  | nil => rfl
  | cons cl rest ih => simp [Sud2SatExt.serializeLines, ih]

/-- Claim C7: the serialized output is exactly one header line
p cnf 729 N, where N is the clause count, followed by one line per
clause in the exact generated sequence (no reordering, no
deduplication); each clause line lists the stored literals in order,
each followed by a space, and ends with the 0 sentinel.  Both encoders
serialize this way. -/
theorem serializer_format (cls : List (List Int)) :
    Sud2Sat.serialize cls =
      ("p cnf 729 " ++ toString cls.length) :: cls.map Sud2Sat.renderClause ∧
    (Sud2Sat.serialize cls).length = 1 + cls.length ∧
    (Sud2Sat.renderClause [] = "0" ∧
      ∀ (lit : Int) (cl : List Int),
        Sud2Sat.renderClause (lit :: cl) =
          toString lit ++ " " ++ Sud2Sat.renderClause cl) ∧
    Sud2SatExt.serialize cls =
      ("p cnf 729 " ++ toString cls.length) :: cls.map Sud2SatExt.renderClause := by
  have hhead : ("p cnf " ++ toString Sud2Sat.numVars ++ " ") = "p cnf 729 " := rfl
  refine ⟨?_, ?_, ⟨rfl, ?_⟩, ?_⟩
  · rw [Sud2Sat.serialize, serializeLines_eq_map, hhead]
  · rw [Sud2Sat.serialize, List.length_cons, serializeLines_eq_map, List.length_map]
    omega
  · intro lit cl
    simp [Sud2Sat.renderClause, string_join_cons, String.append_assoc]
  · rw [Sud2SatExt.serialize, ext_serializeLines_eq_map,
      show ("p cnf " ++ toString Sud2SatExt.numVars ++ " ") = "p cnf 729 " from rfl]

/-! ## Claim C10: the minimal clause sequence is a prefix of the extended one -/

/-- Claim C10: for every grid, the clause sequence produced by the
extended encoder is exactly the minimal encoder clause sequence
(cell-at-least-one, then row/col/box at-most-one, then the given unit
clauses, in identical order) followed by the four extra families
(cell-at-most-one, then row/col/box at-least-one); hence the minimal
formula is recovered by truncating the extended one to its length. -/
theorem extended_refines_minimal (grid : List Nat) :
    Sud2SatExt.extendedClauses grid =
      Sud2Sat.sud2satClauses grid ++
        (Sud2SatExt.add_cell_at_most_one ++ Sud2SatExt.add_row_at_least_one ++
          Sud2SatExt.add_col_at_least_one ++ Sud2SatExt.add_box_at_least_one) ∧
    (Sud2SatExt.extendedClauses grid).take (Sud2Sat.sud2satClauses grid).length =
      Sud2Sat.sud2satClauses grid := by
  have h : Sud2SatExt.extendedClauses grid =
      Sud2Sat.sud2satClauses grid ++
        (Sud2SatExt.add_cell_at_most_one ++ Sud2SatExt.add_row_at_least_one ++
          Sud2SatExt.add_col_at_least_one ++ Sud2SatExt.add_box_at_least_one) := by
    simp only [Sud2SatExt.extendedClauses, Sud2Sat.sud2satClauses,
      ext_cell_at_least_one_eq, ext_row_at_most_one_eq, ext_col_at_most_one_eq,
      ext_box_at_most_one_eq, ext_add_givens_eq, List.append_assoc]
  refine ⟨h, ?_⟩
  rw [h]
  exact List.take_left _ _

/-! ## Claim C6: puzzle input validation -/

lemma charToCell_isSome_iff (ch : Char) :
    (Sud2Sat.charToCell ch).isSome ↔ validSymbol ch := by
  unfold Sud2Sat.charToCell validSymbol
  split_ifs with h1 h2 <;> simp_all

lemma cellsFrom_ok_iff (k : Nat) (l : List Char) :
    (∃ ds, Sud2Sat.cellsFrom k l = .ok ds) ↔ ∀ ch ∈ l, validSymbol ch := by
  induction l generalizing k with
  | nil => simp [Sud2Sat.cellsFrom]
  | cons ch rest ih =>
    cases hc : Sud2Sat.charToCell ch with
    | none =>
      have hv : ¬ validSymbol ch := by
        rw [← charToCell_isSome_iff, hc]
        simp
      simp [Sud2Sat.cellsFrom, hc, hv]
    | some d =>
      have hv : validSymbol ch := by
        rw [← charToCell_isSome_iff, hc]
        simp
      cases hrest : Sud2Sat.cellsFrom (k + 1) rest with
      | error e =>
        have hr : ¬ ∀ ch ∈ rest, validSymbol ch := by
          rw [← ih (k + 1)]
          simp [hrest]
        simp [Sud2Sat.cellsFrom, hc, hrest, hv, hr]
      | ok ds =>
        have hr : ∀ ch ∈ rest, validSymbol ch := (ih (k + 1)).mp ⟨ds, hrest⟩
        simp only [Sud2Sat.cellsFrom, hc, hrest]
        constructor
        · intro _
          intro a ha
          rcases List.mem_cons.mp ha with hh | hh
          · exact hh ▸ hv
          · exact hr a hh
        · intro _
          exact ⟨d :: ds, rfl⟩

/-- Claim C6: the encoder accepts a puzzle input iff, after stripping
all whitespace, it consists of exactly 81 symbols each of which is a
digit 1-9 or one of the wildcards 0, dot, star, question mark; on any
failure of read_grid (wrong count or invalid symbol) the encoder emits
no formula output at all, only the error. -/
theorem read_grid_validation (input : String) :
    ((∃ g, Sud2Sat.read_grid input = .ok g) ↔
      ((input.toList.filter fun ch => !isSpaceChar ch).length = 81 ∧
        ∀ ch ∈ input.toList.filter fun ch => !isSpaceChar ch, validSymbol ch)) ∧
    (∀ e, Sud2Sat.read_grid input = .error e → Sud2Sat.sud2sat input = .error e) := by
  constructor
  · simp only [Sud2Sat.read_grid]
    split_ifs with h
    · rw [cellsFrom_ok_iff]
      constructor
      · intro ha
        exact ⟨h, ha⟩
      · intro ha
        exact ha.2
    · constructor
      · rintro ⟨g, hg⟩
        cases hg
      · rintro ⟨hl, -⟩
        exact absurd hl h
  · intro e he
    rw [Sud2Sat.sud2sat, he]

/-- Witness for claim C6: an all-wildcard 81-character input is
accepted, while an 80-character input and an input with a bad symbol
are rejected. -/
theorem read_grid_validation_witness :
    (∃ g, Sud2Sat.read_grid
      "................................................................................." = .ok g) ∧
    ¬ (∃ g, Sud2Sat.read_grid
      "................................................................................" = .ok g) ∧
    ¬ (∃ g, Sud2Sat.read_grid
      "X................................................................................" = .ok g) :=
  ⟨(read_grid_validation _).1.mpr ⟨by decide, by decide⟩,
   fun hex => by
     have h := (read_grid_validation _).1.mp hex
     revert h
     decide,
   fun hex => by
     have h := (read_grid_validation _).1.mp hex
     revert h
     decide⟩

/-! ## Decoder fold lemmas -/

lemma foldl_flatMap {α β γ : Type} (l : List α) (f : α → List β)
    (step : γ → β → γ) (init : γ) :
    (l.flatMap f).foldl step init =
      l.foldl (fun acc a => (f a).foldl step acc) init := by
  induction l generalizing init with
  | nil => rfl
  | cons x xs ih => simp [List.flatMap_cons, List.foldl_append, ih]

lemma range729_eq_blocks : List.range 729 =
    (List.range 81).flatMap fun k => (List.range 9).map fun j => 9 * k + j := by
  decide

lemma gridStep_block (val : Nat → Int) (k j : Nat) (_hk : k < 81) (hj : j < 9)
    (g : List Nat) :
    Sat2Sud.gridStep val g (9 * k + j) =
      if val (9 * k + j + 1) = 1 then g.set k (j + 1) else g := by
  unfold Sat2Sud.gridStep Sat2Sud.inv_varnum
  have hi : ((9 * k + j : Nat) : Int) + 1 - 1 = ((9 * k + j : Nat) : Int) := by ring
  rw [hi]
  have h0 : (0:Int) ≤ ((9 * k + j : Nat) : Int) := by positivity
  rw [Int.tdiv_eq_ediv h0 (by omega), Int.tmod_eq_emod h0 (by omega)]
  have hm : (0:Int) ≤ ((9 * k + j : Nat) : Int) % 81 := Int.emod_nonneg _ (by omega)
  rw [Int.tdiv_eq_ediv hm (by omega), Int.tmod_eq_emod hm (by omega)]
  have hA : ((((9 * k + j : Nat) : Int)) / 81 + 1 - 1).toNat * 9 +
      (((((9 * k + j : Nat) : Int)) % 81) / 9 + 1 - 1).toNat = k := by
    push_cast
    omega
  have hB : (((((9 * k + j : Nat) : Int)) % 81) % 9 + 1).toNat = j + 1 := by
    push_cast
    omega
  rw [hA, hB]

lemma gridStep_length (val : Nat → Int) (g : List Nat) (i : Nat) :
    (Sat2Sud.gridStep val g i).length = g.length := by
  unfold Sat2Sud.gridStep
  split
  · simp
  · rfl

lemma block_length (val : Nat → Int) (k : Nat) (l : List Nat) :
    ∀ g : List Nat,
      (l.foldl (fun h j => Sat2Sud.gridStep val h (9 * k + j)) g).length = g.length := by
  induction l with
  | nil => intro g; rfl
  | cons x xs ih =>
    intro g
    simp only [List.foldl_cons]
    rw [ih, gridStep_length]

lemma digitScan_cons (val : Nat → Int) (k a x : Nat) (l : List Nat) :
    digitScan val k a (x :: l) =
      digitScan val k (if val (9 * k + x + 1) = 1 then x + 1 else a) l := rfl

lemma digitScan_of_any (val : Nat → Int) (k : Nat) (l : List Nat)
    (h : ∃ j ∈ l, val (9 * k + j + 1) = 1) (a b : Nat) :
    digitScan val k a l = digitScan val k b l := by
  induction l generalizing a b with
  | nil => simp at h
  | cons x xs ih =>
    rw [digitScan_cons, digitScan_cons]
    by_cases hx : val (9 * k + x + 1) = 1
    · rw [if_pos hx, if_pos hx]
    · rw [if_neg hx, if_neg hx]
      obtain ⟨j, hj, hjv⟩ := h
      rcases List.mem_cons.mp hj with rfl | hj2
      · exact absurd hjv hx
      · exact ih ⟨j, hj2, hjv⟩ a b

lemma digitScan_of_none (val : Nat → Int) (k : Nat) (l : List Nat)
    (h : ∀ j ∈ l, val (9 * k + j + 1) ≠ 1) (a : Nat) :
    digitScan val k a l = a := by
  induction l generalizing a with
  | nil => rfl
  | cons x xs ih =>
    rw [digitScan_cons, if_neg (h x (List.mem_cons_self x xs))]
    exact ih (fun j hj => h j (List.mem_cons_of_mem x hj)) a

lemma digitScan_idem (val : Nat → Int) (k : Nat) (l : List Nat) (a : Nat) :
    digitScan val k (digitScan val k a l) l = digitScan val k a l := by
  by_cases h : ∃ j ∈ l, val (9 * k + j + 1) = 1
  · exact digitScan_of_any val k l h _ a
  · push_neg at h
    rw [digitScan_of_none val k l h, digitScan_of_none val k l h]

lemma block_getD (val : Nat → Int) (k : Nat) (hk : k < 81) :
    ∀ (l : List Nat), (∀ j ∈ l, j < 9) → ∀ (g : List Nat), g.length = 81 → ∀ m : Nat,
      ((l.foldl (fun h j => Sat2Sud.gridStep val h (9 * k + j)) g)).getD m 0 =
        if m = k then digitScan val k (g.getD k 0) l else g.getD m 0 := by
  intro l
  induction l with
  | nil =>
    intro _ g _ m
    by_cases hmk : m = k
    · rw [if_pos hmk, hmk]
      rfl
    · rw [if_neg hmk]
      rfl
  | cons x xs ih =>
    intro hl g hg m
    simp only [List.foldl_cons]
    rw [gridStep_block val k x hk (hl x (List.mem_cons_self x xs))]
    have hxs : ∀ j ∈ xs, j < 9 := fun j hj => hl j (List.mem_cons_of_mem x hj)
    by_cases hx : val (9 * k + x + 1) = 1
    · rw [if_pos hx]
      rw [ih hxs (g.set k (x + 1)) (by simp [hg]) m]
      have hset : (g.set k (x + 1)).getD k 0 = x + 1 := by
        rw [List.getD_eq_getElem?_getD, List.getElem?_set_self (by omega), Option.getD_some]
      by_cases hmk : m = k
      · rw [if_pos hmk, if_pos hmk, hset, digitScan_cons, if_pos hx]
      · rw [if_neg hmk, if_neg hmk, List.getD_eq_getElem?_getD,
          List.getElem?_set_ne (by omega), ← List.getD_eq_getElem?_getD]
    · rw [if_neg hx]
      rw [ih hxs g hg m]
      by_cases hmk : m = k
      · rw [if_pos hmk, if_pos hmk, digitScan_cons, if_neg hx]
      · rw [if_neg hmk, if_neg hmk]

lemma outer_getD (val : Nat → Int) (ks : List Nat) (hks : ∀ k ∈ ks, k < 81) :
    ∀ (g : List Nat), g.length = 81 → ∀ m : Nat, m < 81 →
      ((ks.foldl
          (fun h k => ((List.range 9).map fun j => 9 * k + j).foldl
            (Sat2Sud.gridStep val) h) g)).getD m 0 =
        if m ∈ ks then digitScan val m (g.getD m 0) (List.range 9)
        else g.getD m 0 := by
  induction ks with
  | nil =>
    intro g _ m _
    simp
  | cons k ks ih =>
    intro g hg m hm
    simp only [List.foldl_cons]
    have hk : k < 81 := hks k (List.mem_cons_self k ks)
    have hks2 : ∀ a ∈ ks, a < 81 := fun a ha => hks a (List.mem_cons_of_mem k ha)
    have hblock : (((List.range 9).map fun j => 9 * k + j).foldl
        (Sat2Sud.gridStep val) g) =
        ((List.range 9).foldl (fun h j => Sat2Sud.gridStep val h (9 * k + j)) g) := by
      rw [List.foldl_map]
    have hlen : (((List.range 9).map fun j => 9 * k + j).foldl
        (Sat2Sud.gridStep val) g).length = 81 := by
      rw [hblock, block_length]
      exact hg
    rw [ih hks2 _ hlen m hm]
    have hcell : ∀ m2 : Nat,
        (((List.range 9).map fun j => 9 * k + j).foldl (Sat2Sud.gridStep val) g).getD m2 0 =
          if m2 = k then digitScan val k (g.getD k 0) (List.range 9) else g.getD m2 0 := by
      intro m2
      rw [hblock]
      exact block_getD val k hk (List.range 9) (fun j hj => List.mem_range.mp hj) g hg m2
    by_cases hmem : m ∈ ks
    · rw [if_pos hmem, if_pos (List.mem_cons_of_mem k hmem), hcell m]
      by_cases hmk : m = k
      · subst hmk
        rw [if_pos rfl, digitScan_idem]
      · rw [if_neg hmk]
    · rw [if_neg hmem, hcell m]
      by_cases hmk : m = k
      · subst hmk
        rw [if_pos rfl, if_pos (List.mem_cons_self m ks)]
      · rw [if_neg hmk, if_neg (by simp [hmk, hmem])]

lemma decodeGrid_getD (val : Nat → Int) (m : Nat) (hm : m < 81) :
    (Sat2Sud.decodeGrid val).getD m 0 = cellDigit val m := by
  unfold Sat2Sud.decodeGrid
  rw [range729_eq_blocks, foldl_flatMap]
  rw [outer_getD val (List.range 81) (fun k hk => List.mem_range.mp hk)
    (List.replicate 81 0) (by simp) m hm]
  rw [if_pos (List.mem_range.mpr hm)]
  have hrep : (List.replicate 81 0).getD m 0 = 0 := by
    rw [List.getD_eq_getElem?_getD, List.getElem?_replicate]
    split <;> rfl
  rw [hrep]
  rfl

lemma decodeGrid_length (val : Nat → Int) :
    (Sat2Sud.decodeGrid val).length = 81 := by
  unfold Sat2Sud.decodeGrid
  have h : ∀ (l : List Nat) (g : List Nat),
      (l.foldl (Sat2Sud.gridStep val) g).length = g.length := by
    intro l
    induction l with
    | nil => intro g; rfl
    | cons x xs ih =>
      intro g
      simp only [List.foldl_cons]
      rw [ih, gridStep_length]
  rw [h]
  rfl

/-! ## Claim C4: accepted solver-output shapes -/

/-- Claim C4 counterexample: a legitimate free-form (shape b) solver
output, the satisfiable token stream  SAT 1 0  on a single line, is
rejected by the decoder with an error instead of being decoded. -/
theorem sat2sud_shape_b_counterexample :
    Sat2Sud.sat2sud ["SAT 1 0"] =
      .failure "expected SAT or UNSAT on first line" := by
  decide

/-- Claim C4 amended: the decoder accepts only shape (a): the first
line must be exactly the verdict SAT (or UNSAT, reported as
no-solution); any other first line is an error, so free-form shape (b)
streams are not accepted.  After SAT, the second line alone is parsed
as the assignment and the grid is decoded from it. -/
theorem sat2sud_accepts_only_shape_a :
    (∀ (first : String) (rest : List String), first ≠ "SAT" → first ≠ "UNSAT" →
      Sat2Sud.sat2sud (first :: rest) =
        .failure "expected SAT or UNSAT on first line") ∧
    (∀ rest : List String, Sat2Sud.sat2sud ("UNSAT" :: rest) = .unsat) ∧
    (∀ (s : String) (rest : List String),
      Sat2Sud.sat2sud ("SAT" :: s :: rest) =
        .solved (Sat2Sud.decodeGrid (Sat2Sud.buildVal
          (Sat2Sud.parseInts (Sat2Sud.tokensOf s))))) := by
  refine ⟨?_, ?_, ?_⟩
  · intro first rest h1 h2
    simp [Sat2Sud.sat2sud, h1, h2]
  · intro rest
    simp [Sat2Sud.sat2sud]
  · intro s rest
    simp [Sat2Sud.sat2sud]

/-- Witness for the amended claim C4 at a concrete rejected first line
and a concrete accepted shape (a) input. -/
theorem sat2sud_accepts_only_shape_a_witness :
    Sat2Sud.sat2sud ("c comment" :: ["1 0"]) =
      .failure "expected SAT or UNSAT on first line" :=
  sat2sud_accepts_only_shape_a.1 "c comment" ["1 0"] (by decide) (by decide)

/-! ## Claim C5: conflicting or missing cell assignments -/

/-- Claim C5 counterexample: the solver output making variables 1 and 2
both true assigns digits 1 and 2 to the same cell (1,1), and leaves all
other cells without any true variable; the decoder reports no error at
all: it silently overwrites cell (1,1) with the larger digit and emits
the grid, unfilled cells printed as 0. -/
theorem sat2sud_conflict_counterexample :
    Sat2Sud.sat2sud ["SAT", "1 2 0"] = .solved (2 :: List.replicate 80 0) := by
  decide

/-- Claim C5 amended: the decoder performs no conflict or completeness
check and never reports MalformedAssignment: every SAT-verdict input
decodes to a grid, and each cell of that grid holds the digit of the
highest-numbered true variable mapping to it (later writes silently
overwrite earlier ones), or 0 when no true variable maps to it. -/
theorem decode_no_malformed_check :
    (∀ (val : Nat → Int) (k : Nat), k < 81 →
      (Sat2Sud.decodeGrid val).getD k 0 = cellDigit val k) ∧
    (∀ (s : String) (rest : List String), ∃ g,
      Sat2Sud.sat2sud ("SAT" :: s :: rest) = .solved g) := by
  refine ⟨?_, ?_⟩
  · intro val k hk
    exact decodeGrid_getD val k hk
  · intro s rest
    exact ⟨Sat2Sud.decodeGrid (Sat2Sud.buildVal (Sat2Sud.parseInts (Sat2Sud.tokensOf s))),
      by simp [Sat2Sud.sat2sud]⟩

/-- Witness for the amended claim C5: the overwrite characterization at
the concrete conflicting valuation of variables 1 and 2, cell 0. -/
theorem decode_no_malformed_check_witness :
    (Sat2Sud.decodeGrid (Sat2Sud.buildVal [1, 2])).getD 0 0 =
      cellDigit (Sat2Sud.buildVal [1, 2]) 0 :=
  decode_no_malformed_check.1 (Sat2Sud.buildVal [1, 2]) 0 (by decide)

/-! ## Claim C8: out-of-range literals are skipped -/

lemma valStep_out_of_range (x : Int) (hx : x.natAbs < 1 ∨ 729 < x.natAbs)
    (v : Nat → Int) : Sat2Sud.valStep v x = v := by
  funext j
  unfold Sat2Sud.valStep
  rw [if_neg (by omega), if_neg (by omega)]

/-- Claim C8: a literal whose absolute value lies outside [1,729] is a
pure no-op for the decoder: it sets no valuation entry, so the
valuation and the decoded grid are the same as if the literal were
absent, and no error is raised (the decoder stays total). -/
theorem out_of_range_literal_skipped (x : Int) (pre post : List Int)
    (hx : x.natAbs < 1 ∨ 729 < x.natAbs) :
    Sat2Sud.buildVal (pre ++ x :: post) = Sat2Sud.buildVal (pre ++ post) ∧
    Sat2Sud.decodeGrid (Sat2Sud.buildVal (pre ++ x :: post)) =
      Sat2Sud.decodeGrid (Sat2Sud.buildVal (pre ++ post)) := by
  have hb : Sat2Sud.buildVal (pre ++ x :: post) = Sat2Sud.buildVal (pre ++ post) := by
    unfold Sat2Sud.buildVal
    rw [List.foldl_append, List.foldl_append, List.foldl_cons,
      valStep_out_of_range x hx]
  exact ⟨hb, by rw [hb]⟩

/-- Witness for claim C8 at the concrete out-of-range literal 1000
inserted between the in-range literals 1 and 2. -/
theorem out_of_range_literal_skipped_witness :
    Sat2Sud.buildVal [1, 1000, 2] = Sat2Sud.buildVal [1, 2] ∧
    Sat2Sud.decodeGrid (Sat2Sud.buildVal [1, 1000, 2]) =
      Sat2Sud.decodeGrid (Sat2Sud.buildVal [1, 2]) :=
  out_of_range_literal_skipped 1000 [1] [2] (by decide)

/-! ## Claim C9: reordering the literal tokens -/

lemma valStep_eq (v : Nat → Int) (x : Int) (j : Nat) :
    Sat2Sud.valStep v x j =
      if 0 < x ∧ x ≤ 729 ∧ j = x.toNat then 1
      else if x < 0 ∧ -x ≤ 729 ∧ j = (-x).toNat then -1
      else v j := by
  unfold Sat2Sud.valStep
  split_ifs <;> first | rfl | omega

lemma valStep_comm (x y : Int) (hxy : x ≠ -y) (v : Nat → Int) :
    Sat2Sud.valStep (Sat2Sud.valStep v x) y =
      Sat2Sud.valStep (Sat2Sud.valStep v y) x := by
  funext j
  simp only [valStep_eq]
  split_ifs <;> first | rfl | omega

/-- Claim C9 counterexample: the assignment lines  5 -5 0  and
-5 5 0  are permutations of each other as token sequences (they parse
to permuted literal lists), yet the decoder produces different results
for them: with the positive literal last, cell (1,1) receives digit 5;
with the negative literal last, the cell stays empty. -/
theorem decode_perm_counterexample :
    (Sat2Sud.parseInts (Sat2Sud.tokensOf "5 -5 0")).Perm
      (Sat2Sud.parseInts (Sat2Sud.tokensOf "-5 5 0")) ∧
    Sat2Sud.sat2sud ["SAT", "5 -5 0"] ≠ Sat2Sud.sat2sud ["SAT", "-5 5 0"] := by
  constructor
  · rw [show Sat2Sud.parseInts (Sat2Sud.tokensOf "5 -5 0") = [5, -5] from rfl,
      show Sat2Sud.parseInts (Sat2Sud.tokensOf "-5 5 0") = [-5, 5] from rfl]
    exact List.Perm.swap (-5) 5 []
  · decide

/-- Claim C9 amended: decoding is invariant under permutations of the
literal list parsed before the zero terminator, provided no variable
occurs both positively and negatively in it; reordering a complementary
pair (or moving the zero terminator among the tokens) can change the
decoded grid. -/
theorem decode_perm_invariant (l1 l2 : List Int) (hp : l1.Perm l2)
    (hcl : ∀ x ∈ l1, -x ∉ l1) :
    Sat2Sud.buildVal l1 = Sat2Sud.buildVal l2 ∧
    Sat2Sud.decodeGrid (Sat2Sud.buildVal l1) =
      Sat2Sud.decodeGrid (Sat2Sud.buildVal l2) := by
  have hb : Sat2Sud.buildVal l1 = Sat2Sud.buildVal l2 := by
    unfold Sat2Sud.buildVal
    apply List.Perm.foldl_eq' hp
    intro x hx y hy z
    apply valStep_comm
    intro hxyeq
    exact hcl x hx (by rw [hxyeq, neg_neg]; exact hy)
  exact ⟨hb, by rw [hb]⟩

/-- Witness for the amended claim C9 at the concrete clash-free
permuted literal lists [1, 2] and [2, 1]. -/
theorem decode_perm_invariant_witness :
    Sat2Sud.buildVal [1, 2] = Sat2Sud.buildVal [2, 1] :=
  (decode_perm_invariant [1, 2] [2, 1] (List.Perm.swap 2 1 []) (by decide)).1
